import Mathlib

/-!
Verification development for the Agilow bug-report backend.

The Python sources are shallowly embedded as Lean definitions:

* Python `dict[str, V]` values become association lists `List (String × V)`
  with the dict operations `alGet` (`d.get(k)` / `d[k]`), `alSet`
  (`d[k] = v`, which keeps insertion order for an existing key and appends
  a fresh key at the end, exactly as CPython dicts do), and `alDel`
  (`del d[k]`).
* `generate_bug_report_conversation` (src/agents/bug_agent.py) is embedded
  with its two external effects — the OpenAI chat call and the JSON parse
  of the reply — abstracted into one `Except String (Option Payload)`
  argument: `.error e` means the API call raised `e`, `.ok none` means the
  reply text could not be parsed as JSON, and `.ok (some p)` means the
  parse produced payload `p`.
* `upload_bug_report_attachments` / `process_bug_report`
  (src/utils/s3_utils.py, src/api/bug_report_handler.py) are embedded with
  the S3 and Jira network calls abstracted into oracle functions carried
  by an `S3Env` record and a `createTicket` argument.
* the FastAPI handlers `bug_report_chat` and `reset_bug_report_session`
  (src/main.py) are embedded as pure state transformers on the session
  store (the module-global `conversation_states` dict).
-/

namespace AgilowBug

/-! ### Python dict operations on association lists -/

/-- `d.get(k)` on a Python dict embedded as an association list. -/
def alGet {β : Type} : List (String × β) → String → Option β
  | [], _ => none
  | p :: r, k => if p.1 == k then some p.2 else alGet r k

/-- `d[k] = v` on a Python dict: overwrite in place when the key exists,
append at the end otherwise (CPython insertion-order semantics). -/
def alSet {β : Type} (r : List (String × β)) (k : String) (v : β) : List (String × β) :=
  if r.any (fun p => p.1 == k) then
    r.map (fun p => if p.1 == k then (k, v) else p)
  else
    r ++ [(k, v)]

/-- `del d[k]` on a Python dict: the key is removed entirely. -/
def alDel {β : Type} (r : List (String × β)) (k : String) : List (String × β) :=
  r.filter (fun p => p.1 != k)

/-- The key list of an embedded dict. -/
def keysOf {β : Type} (r : List (String × β)) : List String :=
  r.map Prod.fst

/-- A bug-report record: the Python dict `collected_info` /
`bug_report_data`, field name ↦ string value. -/
abbrev Record := List (String × String)

/-- Python `str.strip()`: drop leading and trailing whitespace. Embedded
structurally on the character list (equivalent to `String.trim`) so that
it evaluates by kernel reduction on concrete inputs. -/
def pyStrip (s : String) : String :=
  ⟨((s.data.dropWhile Char.isWhitespace).reverse.dropWhile Char.isWhitespace).reverse⟩

/-- The Python truthiness test `value and value.strip()` used by the merge
loop in `generate_bug_report_conversation` (src/agents/bug_agent.py line
133): true exactly for a non-empty, non-whitespace string. -/
def nonBlank (v : String) : Bool := v != "" && pyStrip v != ""

/-- Lines 130-134 of src/agents/bug_agent.py:

```
updated_collected_info = {**collected_info}
for key, value in bug_report_data.items():
    if value and value.strip():
        updated_collected_info[key] = value
```
-/
def merge (existing incoming : Record) : Record :=
  match incoming with
  | [] => existing
  | p :: rest => merge (if nonBlank p.2 then alSet existing p.1 p.2 else existing) rest

/-! ### Generic association-list lemmas -/

section AssocLemmas

variable {β : Type}

theorem alGet_map_self (r : List (String × β)) (k : String) (v : β)
    (h : r.any (fun p => p.1 == k) = true) :
    alGet (r.map (fun p => if p.1 == k then (k, v) else p)) k = some v := by
  induction r with
  | nil => simp at h
  | cons q r ih =>
    simp only [List.map_cons]
    by_cases hq : q.1 = k
    · rw [if_pos (by simpa using hq)]
      simp [alGet]
    · rw [if_neg (by simpa using hq)]
      simp only [List.any_cons, beq_eq_false_iff_ne.mpr hq, Bool.false_or] at h
      simpa [alGet, beq_eq_false_iff_ne.mpr hq] using ih h

theorem alGet_map_ne (r : List (String × β)) (k k' : String) (v : β)
    (h : k' ≠ k) :
    alGet (r.map (fun p => if p.1 == k then (k, v) else p)) k' = alGet r k' := by
  induction r with
  | nil => simp
  | cons q r ih =>
    simp only [List.map_cons]
    by_cases hq : q.1 = k
    · rw [if_pos (by simpa using hq)]
      have h1 : (k == k') = false := beq_eq_false_iff_ne.mpr (Ne.symm h)
      have h2 : (q.1 == k') = false := beq_eq_false_iff_ne.mpr (hq ▸ Ne.symm h)
      simpa [alGet, h1, h2] using ih
    · rw [if_neg (by simpa using hq)]
      by_cases hq2 : q.1 = k'
      · simp [alGet, hq2]
      · simpa [alGet, beq_eq_false_iff_ne.mpr hq2] using ih

theorem alGet_eq_none_of_not_any (r : List (String × β)) (k : String)
    (h : r.any (fun p => p.1 == k) = false) : alGet r k = none := by
  induction r with
  | nil => simp [alGet]
  | cons q r ih =>
    simp only [List.any_cons, Bool.or_eq_false_iff] at h
    simp [alGet, h.1, ih h.2]

theorem alGet_append_right (r s : List (String × β)) (k : String)
    (h : alGet r k = none) : alGet (r ++ s) k = alGet s k := by
  induction r with
  | nil => simp
  | cons q r ih =>
    by_cases hq : q.1 = k
    · simp [alGet, hq] at h
    · simp only [alGet, beq_eq_false_iff_ne.mpr hq, if_neg] at h
      simpa [alGet, beq_eq_false_iff_ne.mpr hq] using ih h

theorem alGet_alSet_self (r : List (String × β)) (k : String) (v : β) :
    alGet (alSet r k v) k = some v := by
  unfold alSet
  by_cases h : r.any (fun p => p.1 == k) = true
  · rw [if_pos h]
    exact alGet_map_self r k v h
  · have h' : r.any (fun p => p.1 == k) = false := by
      cases hh : r.any (fun p => p.1 == k) <;> simp_all
    rw [if_neg (by simp [h'])]
    rw [alGet_append_right r _ k (alGet_eq_none_of_not_any r k h')]
    simp [alGet]

theorem alGet_append_single_ne (r : List (String × β)) (k k' : String) (v : β)
    (h : k' ≠ k) : alGet (r ++ [(k, v)]) k' = alGet r k' := by
  induction r with
  | nil => simp [alGet, beq_eq_false_iff_ne.mpr (Ne.symm h)]
  | cons q r ih =>
    by_cases hq : q.1 = k'
    · simp [alGet, hq]
    · simp [alGet, beq_eq_false_iff_ne.mpr hq, ih]

theorem alGet_alSet_ne (r : List (String × β)) (k k' : String) (v : β)
    (h : k' ≠ k) : alGet (alSet r k v) k' = alGet r k' := by
  unfold alSet
  by_cases hh : r.any (fun p => p.1 == k) = true
  · rw [if_pos hh]
    exact alGet_map_ne r k k' v h
  · have h' : r.any (fun p => p.1 == k) = false := by
      cases hx : r.any (fun p => p.1 == k) <;> simp_all
    rw [if_neg (by simp [h'])]
    exact alGet_append_single_ne r k k' v h

theorem keysOf_alSet_of_mem (r : List (String × β)) (k : String) (v : β)
    (h : r.any (fun p => p.1 == k) = true) :
    keysOf (alSet r k v) = keysOf r := by
  simp only [alSet, h, if_true, keysOf, List.map_map]
  apply List.map_congr_left
  intro p _
  by_cases hp : p.1 = k
  · simp [Function.comp, hp]
  · simp [Function.comp, beq_eq_false_iff_ne.mpr hp]

theorem mem_keysOf_alSet_self (r : List (String × β)) (k : String) (v : β) :
    k ∈ keysOf (alSet r k v) := by
  unfold alSet
  by_cases h : r.any (fun p => p.1 == k) = true
  · rw [if_pos h]
    simp only [List.any_eq_true] at h
    obtain ⟨p, hp, hpk⟩ := h
    have hm : (k, v) ∈ r.map (fun p => if p.1 == k then (k, v) else p) :=
      List.mem_map.mpr ⟨p, hp, by rw [if_pos hpk]⟩
    simp only [keysOf]
    exact List.mem_map.mpr ⟨(k, v), hm, rfl⟩
  · have h' : r.any (fun p => p.1 == k) = false := by
      cases hx : r.any (fun p => p.1 == k) <;> simp_all
    rw [if_neg (by simp [h'])]
    simp [keysOf]

theorem mem_keysOf_alSet_of_mem (r : List (String × β)) (k k' : String) (v : β)
    (h : k' ∈ keysOf r) : k' ∈ keysOf (alSet r k v) := by
  by_cases hh : r.any (fun p => p.1 == k) = true
  · rw [keysOf_alSet_of_mem r k v hh]
    exact h
  · have h' : r.any (fun p => p.1 == k) = false := by
      cases hx : r.any (fun p => p.1 == k) <;> simp_all
    unfold alSet
    rw [if_neg (by simp [h'])]
    simp only [keysOf, List.map_append, List.mem_append]
    exact Or.inl h

theorem mem_alSet_ne (r : List (String × β)) (k : String) (v : β)
    (p : String × β) (hp : p ∈ alSet r k v) (hne : p.1 ≠ k) : p ∈ r := by
  unfold alSet at hp
  by_cases hh : r.any (fun q => q.1 == k) = true
  · rw [if_pos hh] at hp
    obtain ⟨q, hq, hqe⟩ := List.mem_map.mp hp
    by_cases hq1 : q.1 = k
    · rw [if_pos (by simpa using hq1)] at hqe
      exact absurd (by rw [← hqe]) hne
    · rw [if_neg (by simpa using hq1)] at hqe
      exact hqe ▸ hq
  · have h' : r.any (fun q => q.1 == k) = false := by
      cases hx : r.any (fun q => q.1 == k) <;> simp_all
    rw [if_neg (by simp [h'])] at hp
    rcases List.mem_append.mp hp with h1 | h2
    · exact h1
    · simp only [List.mem_singleton] at h2
      exact absurd (by rw [h2]) hne

theorem mem_alSet_eq (r : List (String × β)) (k : String) (v : β)
    (p : String × β) (hp : p ∈ alSet r k v) (hk : p.1 = k) : p = (k, v) := by
  unfold alSet at hp
  by_cases hh : r.any (fun q => q.1 == k) = true
  · rw [if_pos hh] at hp
    obtain ⟨q, hq, hqe⟩ := List.mem_map.mp hp
    by_cases hq1 : q.1 = k
    · rw [if_pos (by simpa using hq1)] at hqe
      exact hqe.symm
    · rw [if_neg (by simpa using hq1)] at hqe
      exact absurd (hqe ▸ hk) hq1
  · have h' : r.any (fun q => q.1 == k) = false := by
      cases hx : r.any (fun q => q.1 == k) <;> simp_all
    rw [if_neg (by simp [h'])] at hp
    rcases List.mem_append.mp hp with h1 | h2
    · exfalso
      simp only [List.any_eq_false] at h'
      exact (h' p h1) (by simp [hk])
    · exact List.mem_singleton.mp h2

end AssocLemmas

/-! ### Characterization of `merge` -/

/-- The value the merge loop leaves at key `k` when folding `incoming`
left to right: the last entry of `incoming` at key `k` whose value passes
the `nonBlank` test, if any. -/
def lastNB : Record → String → Option String
  | [], _ => none
  | p :: rest, k =>
    (lastNB rest k).or (if p.1 == k && nonBlank p.2 then some p.2 else none)

theorem lastNB_nonBlank (i : Record) (k : String) :
    ∀ v, lastNB i k = some v → nonBlank v = true := by
  induction i with
  | nil => intro v h; simp [lastNB] at h
  | cons p rest ih =>
    intro v h
    simp only [lastNB] at h
    cases hr : lastNB rest k with
    | some w => rw [hr] at h; simp only [Option.or] at h; exact ih v (hr.trans h)
    | none =>
      rw [hr] at h
      simp only [Option.or] at h
      by_cases hc : (p.1 == k && nonBlank p.2) = true
      · rw [if_pos hc] at h
        have hv : p.2 = v := by simpa using h
        exact hv ▸ (Bool.and_elim_right hc)
      · rw [if_neg hc] at h
        simp at h

theorem mem_keysOf_iff_any {β : Type} (r : List (String × β)) (k : String) :
    k ∈ keysOf r ↔ r.any (fun p => p.1 == k) = true := by
  simp only [keysOf, List.mem_map, List.any_eq_true, beq_iff_eq]

/-- What the merge of src/agents/bug_agent.py lines 130-134 stores at each
key: the last non-blank incoming value for that key when one exists,
otherwise whatever `existing` held. -/
theorem alGet_merge (i : Record) : ∀ (e : Record) (k : String),
    alGet (merge e i) k = (lastNB i k).or (alGet e k) := by
  induction i with
  | nil => intro e k; simp [merge, lastNB]
  | cons p rest ih =>
    intro e k
    by_cases hb : nonBlank p.2 = true
    · show alGet (merge (if nonBlank p.2 then alSet e p.1 p.2 else e) rest) k = _
      rw [if_pos hb, ih]
      simp only [lastNB, hb, Bool.and_true]
      cases hr : lastNB rest k with
      | some v => simp [Option.or]
      | none =>
        simp only [Option.or]
        by_cases hpk : p.1 = k
        · rw [if_pos (by simpa using hpk)]
          subst hpk
          exact alGet_alSet_self e p.1 p.2
        · rw [if_neg (by simpa using hpk)]
          exact alGet_alSet_ne e p.1 k p.2 (fun hc => hpk hc.symm)
    · have hb' : nonBlank p.2 = false := by
        cases hx : nonBlank p.2 <;> simp_all
      show alGet (merge (if nonBlank p.2 then alSet e p.1 p.2 else e) rest) k = _
      rw [if_neg (by simp [hb']), ih]
      simp [lastNB, hb']

theorem lastNB_eq_none_of_not_mem (i : Record) (k : String)
    (h : k ∉ keysOf i) : lastNB i k = none := by
  induction i with
  | nil => rfl
  | cons p rest ih =>
    simp only [keysOf, List.map_cons, List.mem_cons, not_or] at h
    have h1 : (p.1 == k) = false := beq_eq_false_iff_ne.mpr (fun hc => h.1 hc.symm)
    have h2 := ih (by simpa [keysOf] using h.2)
    simp [lastNB, h1, h2]

/-- With duplicate-free keys (every Python dict), `lastNB` is determined
by the unique entry of the dict at that key. -/
theorem lastNB_of_nodup (i : Record) (k : String) (h : (keysOf i).Nodup) :
    lastNB i k = (alGet i k).bind (fun v => if nonBlank v then some v else none) := by
  induction i with
  | nil => rfl
  | cons p rest ih =>
    simp only [keysOf, List.map_cons, List.nodup_cons] at h
    by_cases hpk : p.1 = k
    · have hrest : lastNB rest k = none :=
        lastNB_eq_none_of_not_mem rest k (by simpa [keysOf, hpk] using h.1)

      simp [lastNB, alGet, hpk, hrest, Option.or]
    · have h1 : (p.1 == k) = false := beq_eq_false_iff_ne.mpr hpk
      simp only [lastNB, alGet, h1, Bool.false_and, if_neg Bool.false_ne_true,
        Option.or_none, if_neg (by simp : ¬False)]
      simpa using ih h.2

/-! ### Idempotence machinery for `merge` -/

/-- Rewriting one stored entry to the final value the merge loop assigns
to its key (identity for keys the loop never writes). -/
def overrideBy (i : Record) (p : String × String) : String × String :=
  match lastNB i p.1 with
  | some v => (p.1, v)
  | none => p

theorem overrideBy_nil (p : String × String) : overrideBy [] p = p := rfl

theorem merge_eq_map_overrideBy (i : Record) : ∀ (r : Record),
    (∀ p ∈ i, nonBlank p.2 = true → p.1 ∈ keysOf r) →
    merge r i = r.map (overrideBy i) := by
  induction i with
  | nil =>
    intro r _
    show r = r.map (overrideBy [])
    rw [List.map_congr_left (fun p _ => overrideBy_nil p)]
    simp
  | cons q rest ih =>
    intro r h
    by_cases hb : nonBlank q.2 = true
    · have hqk : r.any (fun p => p.1 == q.1) = true :=
        (mem_keysOf_iff_any r q.1).mp (h q (List.mem_cons_self q rest) hb)
      have hset : alSet r q.1 q.2 = r.map (fun p => if p.1 == q.1 then (q.1, q.2) else p) := by
        simp [alSet, hqk]
      show merge (if nonBlank q.2 then alSet r q.1 q.2 else r) rest = _
      rw [if_pos hb]
      have hkeys : keysOf (alSet r q.1 q.2) = keysOf r := keysOf_alSet_of_mem r q.1 q.2 hqk
      have hrest : ∀ p ∈ rest, nonBlank p.2 = true → p.1 ∈ keysOf (alSet r q.1 q.2) := by
        intro p hp hpb
        rw [hkeys]
        exact h p (List.mem_cons_of_mem q hp) hpb
      rw [ih (alSet r q.1 q.2) hrest, hset, List.map_map]
      apply List.map_congr_left
      intro p _
      simp only [Function.comp]
      by_cases hpq : p.1 = q.1
      · rw [if_pos (by simpa using hpq)]
        simp only [overrideBy, lastNB, hb, Bool.and_true, hpq, beq_self_eq_true, if_pos]
        cases hr : lastNB rest q.1 <;> simp [Option.or]
      · rw [if_neg (by simpa using hpq)]
        simp only [overrideBy, lastNB, beq_eq_false_iff_ne.mpr (fun hc : q.1 = p.1 => hpq hc.symm),
          Bool.false_and, if_neg Bool.false_ne_true, Option.or_none]
    · have hb' : nonBlank q.2 = false := by
        cases hx : nonBlank q.2 <;> simp_all
      show merge (if nonBlank q.2 then alSet r q.1 q.2 else r) rest = _
      rw [if_neg (by simp [hb'])]
      rw [ih r (fun p hp hpb => h p (List.mem_cons_of_mem q hp) hpb)]
      apply List.map_congr_left
      intro p _
      simp [overrideBy, lastNB, hb']

theorem mem_merge_of_lastNB_none (i : Record) : ∀ (r : Record) (p : String × String),
    p ∈ merge r i → lastNB i p.1 = none → p ∈ r := by
  induction i with
  | nil => intro r p hp _; exact hp
  | cons q rest ih =>
    intro r p hp hn
    simp only [lastNB] at hn
    have hrest : lastNB rest p.1 = none := by
      cases hr : lastNB rest p.1 with
      | none => rfl
      | some v => rw [hr] at hn; simp [Option.or] at hn
    rw [hrest] at hn
    simp only [Option.or] at hn
    by_cases hb : nonBlank q.2 = true
    · have hq : (q.1 == p.1) = false := by
        by_cases hc : (q.1 == p.1) = true
        · rw [if_pos (by simp [hc, hb])] at hn; simp at hn
        · cases hx : (q.1 == p.1) <;> simp_all
      have hp' : p ∈ merge (alSet r q.1 q.2) rest := by
        have : merge r (q :: rest) = merge (alSet r q.1 q.2) rest := by
          show merge (if nonBlank q.2 then alSet r q.1 q.2 else r) rest = _
          rw [if_pos hb]
        exact this ▸ hp
      exact mem_alSet_ne r q.1 q.2 p (ih (alSet r q.1 q.2) p hp' hrest)
        (fun hc => by simp [hc] at hq)
    · have hb' : nonBlank q.2 = false := by
        cases hx : nonBlank q.2 <;> simp_all
      have hp' : p ∈ merge r rest := by
        have : merge r (q :: rest) = merge r rest := by
          show merge (if nonBlank q.2 then alSet r q.1 q.2 else r) rest = _
          rw [if_neg (by simp [hb'])]
        exact this ▸ hp
      exact ih r p hp' hrest

theorem overrideBy_of_mem_merge (i : Record) : ∀ (r : Record) (p : String × String),
    p ∈ merge r i → overrideBy i p = p := by
  induction i with
  | nil => intro r p _; rfl
  | cons q rest ih =>
    intro r p hp
    by_cases hb : nonBlank q.2 = true
    · have hp' : p ∈ merge (alSet r q.1 q.2) rest := by
        have : merge r (q :: rest) = merge (alSet r q.1 q.2) rest := by
          show merge (if nonBlank q.2 then alSet r q.1 q.2 else r) rest = _
          rw [if_pos hb]
        exact this ▸ hp
      have hrest := ih (alSet r q.1 q.2) p hp'
      by_cases hq : q.1 = p.1
      · simp only [overrideBy, lastNB, hb, Bool.and_true, hq, beq_self_eq_true, if_pos]
        cases hr : lastNB rest p.1 with
        | some v =>
          simp only [overrideBy, hr] at hrest
          simp [Option.or, hr, hrest]
        | none =>
          simp only [Option.or, hr]
          have hmem : p ∈ alSet r q.1 q.2 :=
            mem_merge_of_lastNB_none rest (alSet r q.1 q.2) p hp' hr
          have hpv := mem_alSet_eq r q.1 q.2 p hmem hq.symm
          rw [hpv]
      · simp only [overrideBy, lastNB, beq_eq_false_iff_ne.mpr hq, Bool.false_and,
          if_neg Bool.false_ne_true, Option.or_none]
        simpa [overrideBy] using hrest
    · have hb' : nonBlank q.2 = false := by
        cases hx : nonBlank q.2 <;> simp_all
      have hp' : p ∈ merge r rest := by
        have : merge r (q :: rest) = merge r rest := by
          show merge (if nonBlank q.2 then alSet r q.1 q.2 else r) rest = _
          rw [if_neg (by simp [hb'])]
        exact this ▸ hp
      have hrest := ih r p hp'
      simp only [overrideBy, lastNB, hb', Bool.and_false, if_neg Bool.false_ne_true,
        Option.or_none]
      simpa [overrideBy] using hrest

theorem mem_keysOf_merge_left (i : Record) : ∀ (r : Record) (k : String),
    k ∈ keysOf r → k ∈ keysOf (merge r i) := by
  induction i with
  | nil => intro r k h; exact h
  | cons q rest ih =>
    intro r k h
    show k ∈ keysOf (merge (if nonBlank q.2 then alSet r q.1 q.2 else r) rest)
    by_cases hb : nonBlank q.2 = true
    · rw [if_pos hb]
      exact ih _ k (mem_keysOf_alSet_of_mem r q.1 k q.2 h)
    · rw [if_neg hb]
      exact ih r k h

theorem mem_keysOf_merge_of_mem (i : Record) : ∀ (r : Record) (p : String × String),
    p ∈ i → nonBlank p.2 = true → p.1 ∈ keysOf (merge r i) := by
  induction i with
  | nil => intro r p hp _; simp at hp
  | cons q rest ih =>
    intro r p hp hb
    rcases List.mem_cons.mp hp with rfl | hp'
    · show p.1 ∈ keysOf (merge (if nonBlank p.2 then alSet r p.1 p.2 else r) rest)
      rw [if_pos hb]
      exact mem_keysOf_merge_left rest _ p.1 (mem_keysOf_alSet_self r p.1 p.2)
    · show p.1 ∈ keysOf (merge (if nonBlank q.2 then alSet r q.1 q.2 else r) rest)
      exact ih _ p hp' hb


/-! ### Follow-up question re-numbering (src/agents/bug_agent.py lines 136-148) -/

/-- Python `str.startswith`: a prefix test on the character sequence. -/
def pyStartsWith (s p : String) : Bool := p.data.isPrefixOf s.data

/-- The `f"Q{i}:"` tag compared against in line 141. -/
def qTag (i : Nat) : String := "Q" ++ toString i ++ ":"

/-- Python `question_text.split(":", 1)[1]`: everything after the first
colon. (Only evaluated under the guard `":" in question_text`.) -/
def afterColon (s : String) : String := ⟨(s.data.dropWhile (fun c => c ≠ ':')).drop 1⟩

/-- One iteration of the re-numbering loop, lines 138-148 (with `i` the
1-based `enumerate` index; `str(question)` is the identity because the
payload's questions are embedded as strings, and `":" in question_text`
is the single-character membership test `contains`):

```
question_text = str(question).strip()
if question_text.startswith(f"Q{i}:"):
    formatted_questions.append(question_text)
elif question_text.startswith("Q") and ":" in question_text:
    question_text = question_text.split(":", 1)[1].strip()
    formatted_questions.append(f"Q{i}: {question_text}")
else:
    formatted_questions.append(f"Q{i}: {question_text}")
```
-/
def formatQuestion (i : Nat) (q : String) : String :=
  let t := pyStrip q
  if pyStartsWith t (qTag i) then t
  else if pyStartsWith t "Q" && t.data.contains ':' then
    qTag i ++ " " ++ pyStrip (afterColon t)
  else
    qTag i ++ " " ++ t

def formatQuestionsFrom : Nat → List String → List String
  | _, [] => []
  | i, q :: qs => formatQuestion i q :: formatQuestionsFrom (i + 1) qs

/-- Lines 137-148: `for i, question in enumerate(questions_to_ask, 1)`. -/
def formatQuestions (questions_to_ask : List String) : List String :=
  formatQuestionsFrom 1 questions_to_ask

theorem pyStartsWith_append2 (p a b : String) :
    pyStartsWith (p ++ a ++ b) p = true := by
  simp only [pyStartsWith, String.data_append, List.isPrefixOf_iff_prefix]
  rw [List.append_assoc]
  exact List.prefix_append _ _

theorem formatQuestion_startsWith (i : Nat) (q : String) :
    pyStartsWith (formatQuestion i q) (qTag i) = true := by
  unfold formatQuestion
  by_cases h1 : pyStartsWith (pyStrip q) (qTag i) = true
  · simp [h1]
  · rw [if_neg h1]
    by_cases h2 : (pyStartsWith (pyStrip q) "Q" && (pyStrip q).data.contains ':') = true
    · rw [if_pos h2]
      exact pyStartsWith_append2 (qTag i) " " (pyStrip (afterColon (pyStrip q)))
    · rw [if_neg h2]
      exact pyStartsWith_append2 (qTag i) " " (pyStrip q)

theorem formatQuestionsFrom_length (qs : List String) :
    ∀ n, (formatQuestionsFrom n qs).length = qs.length := by
  induction qs with
  | nil => intro n; rfl
  | cons q rest ih => intro n; simp [formatQuestionsFrom, ih]

theorem formatQuestionsFrom_getD (qs : List String) :
    ∀ (n i : Nat), i < qs.length →
      (formatQuestionsFrom n qs).getD i "" = formatQuestion (n + i) (qs.getD i "") := by
  induction qs with
  | nil => intro n i h; simp at h
  | cons q rest ih =>
    intro n i h
    cases i with
    | zero => simp [formatQuestionsFrom]
    | succ j =>
      simp only [formatQuestionsFrom, List.getD_cons_succ]
      rw [ih (n + 1) j (by simpa using h)]
      congr 1
      omega

/-! ### The turn processor (src/agents/bug_agent.py, `generate_bug_report_conversation`) -/

/-- The structured payload extracted from the model reply (lines 123-128):
the four `parsed_response.get(...)` lookups, with `Option` marking keys
that may be absent and whose defaults the code supplies. The partial
record defaults to `{}` and the question list to `[]`, so those are
embedded already defaulted. -/
structure Payload where
  user_response : Option String
  bug_report_data : Record
  is_complete : Option Bool
  questions_to_ask : List String
deriving Repr, DecidableEq

/-- The dict returned by `generate_bug_report_conversation` (lines
150-155, 160-165 and 172-178). `error` is the `"error"` key that only the
outer exception handler adds. -/
structure TurnResult where
  user_response : String
  bug_report_data : Record
  is_complete : Bool
  questions_to_ask : List String
  error : Option String
deriving Repr, DecidableEq

/-- Lines 92-178 of src/agents/bug_agent.py, with the two external
effects — the OpenAI chat call and the JSON parse of its reply text —
abstracted into the `extraction` argument: `.error e` means the API call
raised `e` (the outer `except Exception` path, lines 167-178), `.ok none`
means the reply could not be parsed as JSON (the `except
json.JSONDecodeError` path, lines 157-165), and `.ok (some p)` means the
parse succeeded with payload `p` (lines 123-155). -/
def generateBugReportConversation (collected_info : Record)
    (extraction : Except String (Option Payload)) : TurnResult :=
  match extraction with
  | .ok (some p) =>
    { user_response := p.user_response.getD ""
      bug_report_data := merge collected_info p.bug_report_data
      is_complete := p.is_complete.getD false
      questions_to_ask := formatQuestions p.questions_to_ask
      error := none }
  | .ok none =>
    { user_response := "I\x27m having trouble processing that. Could you please rephrase?"
      bug_report_data := collected_info
      is_complete := false
      questions_to_ask := []
      error := none }
  | .error e =>
    { user_response := "I apologize, but I\x27m having trouble processing your request right now. Could you please try again?"
      bug_report_data := collected_info
      is_complete := false
      questions_to_ask := []
      error := some e }

/-- `required_fields` of `_get_missing_fields` (lines 282-298). -/
def required_fields : List (String × String) :=
  [("title", "Title/Summary"),
   ("description", "Description"),
   ("steps_to_reproduce", "Steps to Reproduce"),
   ("expected_behavior", "Expected Behavior"),
   ("actual_behavior", "Actual Behavior")]

/-- `_get_missing_fields` (lines 282-298): the display names of required
fields whose value is absent or blank. -/
def getMissingFields (collected_info : Record) : List String :=
  required_fields.filterMap (fun fd =>
    let value := (alGet collected_info fd.1).getD ""
    if value == "" || pyStrip value == "" then some fd.2 else none)

/-! ### S3 archival (src/utils/s3_utils.py) -/

/-- Python truthiness of an `Optional[str]`: `None` and `""` are falsy. -/
def truthyOpt (s : Option String) : Bool :=
  match s with
  | some t => t != ""
  | none => false

/-- The outcomes of the external S3 calls, abstracted as oracles.
`uploadText d k` is `upload_text_to_s3(text=d, key=k)` (a URL, or `None`
when the client is missing or `put_object` raised); `uploadBase64 d k` is
`upload_base64_to_s3(base64_data=d, key=k)` (the base64-decode failure
path is also a `none`); `readFileBytes path` is `open(path,
'rb').read()`, `none` when it raises; `uploadBytes c k` is
`upload_to_s3(content=c, key=k)`. -/
structure S3Env where
  uploadText : String → String → Option String
  uploadBase64 : String → String → Option String
  readFileBytes : String → Option String
  uploadBytes : String → String → Option String

/-- The base64-vs-file-path heuristic of src/utils/s3_utils.py line 157:
`screen_recording.startswith('data:') or (len(screen_recording) > 100 and
not screen_recording.startswith('/'))`. -/
def isBase64Like (s : String) : Bool :=
  pyStartsWith s "data:" || (decide (s.length > 100) && !pyStartsWith s "/")

/-- `upload_bug_report_attachments` (src/utils/s3_utils.py lines
114-181): the `s3_urls` dict it builds, one optional URL per attachment
that was provided; a screen-recording file path whose read raises
produces no entry at all. -/
def uploadBugReportAttachments (env : S3Env) (report_id : String)
    (transcription console_logs screen_recording : Option String) :
    List (String × Option String) :=
  let urls1 : List (String × Option String) :=
    if truthyOpt transcription then
      [("transcription", env.uploadText (transcription.getD "") (report_id ++ "/transcription.txt"))]
    else []
  let urls2 : List (String × Option String) :=
    if truthyOpt console_logs then
      urls1 ++ [("console_logs", env.uploadText (console_logs.getD "") (report_id ++ "/console_logs.txt"))]
    else urls1
  if truthyOpt screen_recording then
    let sr := screen_recording.getD ""
    let key := report_id ++ "/screen_recording.webm"
    if isBase64Like sr then
      urls2 ++ [("screen_recording", env.uploadBase64 sr key)]
    else
      match env.readFileBytes sr with
      | some content => urls2 ++ [("screen_recording", env.uploadBytes content key)]
      | none => urls2
  else urls2

/-! ### Completion dispatch (src/api/bug_report_handler.py) -/

/-- The `jira_credentials` dict built in src/main.py lines 310-317. -/
structure JiraCredentials where
  api_key : String
  base_url : String
  project_key : String
  email : Option String
deriving Repr, DecidableEq

/-- The dict returned by `create_bug_report_ticket`
(src/agents/jira_ticket_executor.py lines 55-69): a total function —
`create_issue` catches every exception of its network call — whose
contents depend on the remote Jira outcome, so the result is abstracted
to its success flag and message. -/
structure JiraTicketResult where
  success : Bool
  message : String
deriving Repr, DecidableEq

/-- The dict returned by `process_bug_report`
(src/api/bug_report_handler.py lines 58-64). -/
structure ProcessResult where
  success : Bool
  report_id : String
  s3_urls : List (String × Option String)
  jira_ticket : Option JiraTicketResult
  message : String
deriving Repr, DecidableEq

/-- `process_bug_report` (src/api/bug_report_handler.py lines 12-64).
`now` abstracts `datetime.now().strftime('%Y%m%d_%H%M%S')` and
`createTicket` abstracts the external `create_bug_report_ticket` call
(invoked only when credentials are present; it never raises). -/
def processBugReport (env : S3Env)
    (createTicket : JiraCredentials → Record → List (String × Option String) → JiraTicketResult)
    (now : String) (bug_report_data : Record) (conversation_transcript : String)
    (console_logs screen_recording : Option String)
    (jira_credentials : Option JiraCredentials) (user_id : Option String) :
    ProcessResult :=
  let report_id :=
    "bug_" ++ now ++ "_" ++
      (match user_id with
       | some u => if u != "" then u else "anonymous"
       | none => "anonymous")
  let s3_urls :=
    uploadBugReportAttachments env report_id (some conversation_transcript)
      console_logs screen_recording
  let jira_ticket :=
    match jira_credentials with
    | some creds => some (createTicket creds bug_report_data s3_urls)
    | none => none
  { success := true
    report_id := report_id
    s3_urls := s3_urls
    jira_ticket := jira_ticket
    message := "Bug report processed successfully" }

/-! ### The session store and the FastAPI handlers (src/main.py) -/

/-- One value of the module-global `conversation_states` dict
(src/main.py lines 181-185). -/
structure SessionState where
  collected_info : Record
  conversation_history : List (String × String)
  is_complete : Bool
deriving Repr, DecidableEq

/-- The module-global `conversation_states` dict (src/main.py line 36). -/
abbrev Store := List (String × SessionState)

/-- Python `role.title()` as used on the roles `"user"` / `"assistant"`
when rendering the transcript (src/main.py line 277). -/
def pyTitle (role : String) : String := role.capitalize

/-- The response dict built by `bug_report_chat` (src/main.py lines
348-363): `jira_ticket`, `s3_urls` and `status_message` are present only
on the completing turn. -/
structure ChatResponse where
  success : Bool
  user_response : String
  bug_report_complete : Bool
  collected_info : Record
  jira_ticket : Option JiraTicketResult
  s3_urls : Option (List (String × Option String))
  status_message : Option String
deriving Repr, DecidableEq

/-- The session-store core of the `bug_report_chat` handler (src/main.py
lines 176-365), for the single-transcript request format: get-or-create
the session (lines 180-187), append the user message (lines 234-241), run
the Bug Agent (line 252, with its external effects abstracted into
`extraction` as in `generateBugReportConversation`), write the merged
record and completion flag back (lines 264-273), and on completion
dispatch via `process_bug_report` and delete the session (lines 284-343).
Returns the updated store together with the response dict. -/
def bugReportChat (store : Store) (session_id transcript : String)
    (extraction : Except String (Option Payload))
    (env : S3Env)
    (createTicket : JiraCredentials → Record → List (String × Option String) → JiraTicketResult)
    (now : String) (user_id console_logs screen_recording : Option String)
    (jira_credentials : Option JiraCredentials) :
    Store × ChatResponse :=
  let state := (alGet store session_id).getD ⟨[], [], false⟩
  let history := state.conversation_history ++ [("user", transcript)]
  let agent := generateBugReportConversation state.collected_info extraction
  let history2 := history ++ [("assistant", agent.user_response)]
  let state2 : SessionState := ⟨agent.bug_report_data, history2, agent.is_complete⟩
  let store2 := alSet store session_id state2
  let full_transcript :=
    String.intercalate "\n" (history2.map (fun m => pyTitle m.1 ++ ": " ++ m.2))
  if state2.is_complete then
    let pr := processBugReport env createTicket now state2.collected_info
      full_transcript console_logs screen_recording jira_credentials user_id
    (alDel store2 session_id,
     { success := true
       user_response := agent.user_response
       bug_report_complete := state2.is_complete
       collected_info := state2.collected_info
       jira_ticket := pr.jira_ticket
       s3_urls := some pr.s3_urls
       status_message := some "Bug report submitted successfully!" })
  else
    (store2,
     { success := true
       user_response := agent.user_response
       bug_report_complete := state2.is_complete
       collected_info := state2.collected_info
       jira_ticket := none
       s3_urls := none
       status_message := none })

/-- The response of `reset_bug_report_session`. -/
structure ResetResponse where
  success : Bool
  message : String
deriving Repr, DecidableEq

/-- `reset_bug_report_session` (src/main.py lines 377-382):

```
if session_id in conversation_states:
    del conversation_states[session_id]
    return {"success": True, "message": "Session reset successfully"}
return {"success": False, "message": "Session not found"}
```
-/
def resetSession (store : Store) (session_id : String) : Store × ResetResponse :=
  if store.any (fun p => p.1 == session_id) then
    (alDel store session_id, ⟨true, "Session reset successfully"⟩)
  else
    (store, ⟨false, "Session not found"⟩)

/-- The completion flag the turn result carries for a given abstracted
extraction outcome: the payload's `is_complete` (default `False`) on a
successful parse, `False` on either failure path. -/
def extractionComplete (extraction : Except String (Option Payload)) : Bool :=
  match extraction with
  | .ok (some p) => p.is_complete.getD false
  | _ => false

/-- Folding a sequence of turns for one session through `bugReportChat`,
all turns sharing the same per-process collaborators. -/
def runTurns (env : S3Env)
    (createTicket : JiraCredentials → Record → List (String × Option String) → JiraTicketResult)
    (now : String) (user_id console_logs screen_recording : Option String)
    (jira_credentials : Option JiraCredentials) (session_id : String) :
    Store → List (String × Except String (Option Payload)) → Store
  | store, [] => store
  | store, x :: rest =>
    runTurns env createTicket now user_id console_logs screen_recording
      jira_credentials session_id
      (bugReportChat store session_id x.1 x.2 env createTicket now user_id
        console_logs screen_recording jira_credentials).1 rest

/-! ### Helper lemmas about the store and the handlers -/

theorem alGet_alDel_self {β : Type} (r : List (String × β)) (k : String) :
    alGet (alDel r k) k = none := by
  induction r with
  | nil => rfl
  | cons q rest ih =>
    by_cases hq : q.1 = k
    · simp only [alDel, List.filter_cons]
      rw [if_neg (by simp [hq])]
      exact ih
    · simp only [alDel, List.filter_cons]
      rw [if_pos (by simp [bne_iff_ne, hq])]
      simp only [alGet, beq_eq_false_iff_ne.mpr hq, if_neg Bool.false_ne_true]
      exact ih

theorem alGet_isSome_iff_any {β : Type} (r : List (String × β)) (k : String) :
    (alGet r k).isSome = true ↔ r.any (fun p => p.1 == k) = true := by
  induction r with
  | nil => simp [alGet]
  | cons q rest ih =>
    by_cases hq : q.1 = k
    · simp [alGet, hq]
    · simp only [alGet, beq_eq_false_iff_ne.mpr hq, if_neg Bool.false_ne_true,
        List.any_cons, beq_eq_false_iff_ne.mpr hq, Bool.false_or]
      exact ih

theorem generateBugReportConversation_is_complete (collected_info : Record)
    (extraction : Except String (Option Payload)) :
    (generateBugReportConversation collected_info extraction).is_complete =
      extractionComplete extraction := by
  cases extraction with
  | error e => rfl
  | ok o => cases o with
    | none => rfl
    | some p => rfl

theorem bugReportChat_evicts (store : Store) (session_id transcript : String)
    (extraction : Except String (Option Payload)) (env : S3Env)
    (createTicket : JiraCredentials → Record → List (String × Option String) → JiraTicketResult)
    (now : String) (user_id console_logs screen_recording : Option String)
    (jira_credentials : Option JiraCredentials)
    (h : extractionComplete extraction = true) :
    alGet (bugReportChat store session_id transcript extraction env createTicket
      now user_id console_logs screen_recording jira_credentials).1 session_id = none ∧
    (bugReportChat store session_id transcript extraction env createTicket
      now user_id console_logs screen_recording jira_credentials).2.bug_report_complete = true := by
  simp only [bugReportChat, generateBugReportConversation_is_complete, h, if_true]
  exact ⟨alGet_alDel_self _ _, by trivial⟩

theorem bugReportChat_keeps (store : Store) (session_id transcript : String)
    (extraction : Except String (Option Payload)) (env : S3Env)
    (createTicket : JiraCredentials → Record → List (String × Option String) → JiraTicketResult)
    (now : String) (user_id console_logs screen_recording : Option String)
    (jira_credentials : Option JiraCredentials)
    (h : extractionComplete extraction = false) :
    (alGet (bugReportChat store session_id transcript extraction env createTicket
      now user_id console_logs screen_recording jira_credentials).1 session_id).isSome = true := by
  simp only [bugReportChat, generateBugReportConversation_is_complete, h,
    Bool.false_eq_true, if_false]
  rw [alGet_alSet_self]
  rfl

theorem mem_upload_transcription (env : S3Env) (report_id : String)
    (transcription console_logs screen_recording : Option String)
    (h : truthyOpt transcription = true) :
    ("transcription",
      env.uploadText (transcription.getD "") (report_id ++ "/transcription.txt")) ∈
      uploadBugReportAttachments env report_id transcription console_logs screen_recording := by
  unfold uploadBugReportAttachments
  by_cases h2 : truthyOpt console_logs = true <;>
  by_cases h3 : truthyOpt screen_recording = true <;>
  by_cases h4 : isBase64Like (screen_recording.getD "") = true <;>
  cases hr : env.readFileBytes (screen_recording.getD "") <;>
  simp [h, h2, h3, h4, hr]

theorem mem_upload_console_logs (env : S3Env) (report_id : String)
    (transcription console_logs screen_recording : Option String)
    (h : truthyOpt console_logs = true) :
    ("console_logs",
      env.uploadText (console_logs.getD "") (report_id ++ "/console_logs.txt")) ∈
      uploadBugReportAttachments env report_id transcription console_logs screen_recording := by
  unfold uploadBugReportAttachments
  by_cases h2 : truthyOpt transcription = true <;>
  by_cases h3 : truthyOpt screen_recording = true <;>
  by_cases h4 : isBase64Like (screen_recording.getD "") = true <;>
  cases hr : env.readFileBytes (screen_recording.getD "") <;>
  simp [h, h2, h3, h4, hr]

theorem mem_upload_screen_recording (env : S3Env) (report_id : String)
    (transcription console_logs screen_recording : Option String)
    (h : truthyOpt screen_recording = true)
    (hb : isBase64Like (screen_recording.getD "") = true) :
    ("screen_recording",
      env.uploadBase64 (screen_recording.getD "") (report_id ++ "/screen_recording.webm")) ∈
      uploadBugReportAttachments env report_id transcription console_logs screen_recording := by
  unfold uploadBugReportAttachments
  by_cases h2 : truthyOpt transcription = true <;>
  by_cases h3 : truthyOpt console_logs = true <;>
  simp [h, h2, h3, hb]

/-! ### Concrete fixtures used by witnesses and counterexamples -/

/-- An `S3Env` in which every external call fails (`None` everywhere). -/
def testEnv : S3Env :=
  { uploadText := fun _ _ => none
    uploadBase64 := fun _ _ => none
    readFileBytes := fun _ => none
    uploadBytes := fun _ _ => none }

/-- A ticket-creation oracle standing for a failed Jira call. -/
def testTicket : JiraCredentials → Record → List (String × Option String) → JiraTicketResult :=
  fun _ _ _ => ⟨false, "Failed to create bug report ticket in Jira"⟩

/-- A parsed payload whose `is_complete` is `true`. -/
def payloadDone : Payload :=
  { user_response := some "thanks"
    bug_report_data := [("title", "Save crash")]
    is_complete := some true
    questions_to_ask := [] }

/-- A parsed payload whose `is_complete` is `false`. -/
def payloadMore : Payload :=
  { user_response := some "tell me more"
    bug_report_data := [("description", "crash on save")]
    is_complete := some false
    questions_to_ask := ["what OS?"] }

/-! ### Claims -/

/-- Claim C1, counterexample to the claim as stated: the claim says the
merged record's key set is the union of the key sets of `existing` and
`incoming`, but a key of `incoming` carrying a blank value that is absent
from `existing` does not appear in the merged record at all: merging
`{"title": ""}` into `{}` yields `{}`, although the union of the key sets
is `{"title"}`. -/
theorem claim_C1_cx :
    merge [] [("title", "")] = ([] : Record) ∧
    keysOf ([("title", "")] : Record) = ["title"] ∧
    alGet (merge [] [("title", "")]) "title" = none := by
  decide

/-- Claim C1 (amended): for records with duplicate-free keys (every
Python dict), for each key of `incoming` with a non-blank value the merged
record maps that key to `incoming`'s value; for each key of `incoming`
with a blank value the merged record keeps `existing`'s value unchanged;
keys absent from `incoming` are untouched; and the merged record's key
set is the union of `existing`'s key set and the set of keys of
`incoming` that carry non-blank values (not the full key set of
`incoming`). -/
theorem claim_C1 (existing incoming : Record)
    (hn : (keysOf incoming).Nodup) (k : String) :
    (∀ v, alGet incoming k = some v → nonBlank v = true →
      alGet (merge existing incoming) k = some v) ∧
    (∀ v, alGet incoming k = some v → nonBlank v = false →
      alGet (merge existing incoming) k = alGet existing k) ∧
    (alGet incoming k = none →
      alGet (merge existing incoming) k = alGet existing k) ∧
    ((alGet (merge existing incoming) k).isSome = true ↔
      ((alGet existing k).isSome = true ∨
        ∃ v, alGet incoming k = some v ∧ nonBlank v = true)) := by
  rw [show alGet (merge existing incoming) k = (lastNB incoming k).or (alGet existing k) from
    alGet_merge incoming existing k, lastNB_of_nodup incoming k hn]
  cases hv : alGet incoming k with
  | some v =>
    by_cases hb : nonBlank v = true
    · refine ⟨?_, ?_, ?_, ?_⟩
      · intro v' h1 _
        obtain rfl := Option.some.inj h1
        simp [hb, Option.or]
      · intro v' h1 h2
        obtain rfl := Option.some.inj h1
        rw [hb] at h2
        cases h2
      · intro h1
        cases h1
      · constructor
        · intro _
          exact Or.inr ⟨v, rfl, hb⟩
        · intro _
          simp [hb, Option.or]
    · have hb' : nonBlank v = false := by
        cases hx : nonBlank v <;> simp_all
      refine ⟨?_, ?_, ?_, ?_⟩
      · intro v' h1 h2
        obtain rfl := Option.some.inj h1
        rw [hb'] at h2
        cases h2
      · intro v' h1 _
        simp [hb', Option.or]
      · intro h1
        cases h1
      · simp only [hb', Bool.false_eq_true, if_false, Option.some_bind, Option.none_or]
        constructor
        · intro h1
          exact Or.inl h1
        · rintro (h1 | ⟨v', h1, h2⟩)
          · exact h1
          · obtain rfl := Option.some.inj h1
            rw [hb'] at h2
            cases h2
  | none =>
    refine ⟨?_, ?_, ?_, ?_⟩
    · intro v' h1
      cases h1
    · intro v' h1
      cases h1
    · intro _
      simp [Option.or]
    · simp only [Option.none_bind, Option.none_or]
      constructor
      · intro h1
        exact Or.inl h1
      · rintro (h1 | ⟨v', h1, h2⟩)
        · exact h1
        · cases h1

/-- Claim C1 witness: both merge directions at a concrete instance —
`{"title": "New"}` wins over `{"title": "old"}`, while a blank incoming
`description` leaves the existing record's (absent) value unchanged. -/
theorem claim_C1_witness :
    alGet (merge [("title", "old")] [("title", "New"), ("description", " ")]) "title" =
      some "New" ∧
    alGet (merge [("title", "old")] [("title", "New"), ("description", " ")]) "description" =
      alGet [("title", "old")] "description" :=
  ⟨(claim_C1 [("title", "old")] [("title", "New"), ("description", " ")]
      (by decide) "title").1 "New" (by decide) (by decide),
   (claim_C1 [("title", "old")] [("title", "New"), ("description", " ")]
      (by decide) "description").2.1 " " (by decide) (by decide)⟩

/-- Claim C2: on either failure path of the turn processor — the reply
cannot be parsed (`.ok none`, the `json.JSONDecodeError` handler of
src/agents/bug_agent.py lines 157-165) or the capability call raised
(`.error e`, the `except Exception` handler of lines 167-178) — the
returned result carries the input accumulated record unchanged, a `false`
completion flag and an empty follow-up question list; both handlers
return a well-formed result instead of propagating the exception. -/
theorem claim_C2 (collected_info : Record) (e : String) :
    ((generateBugReportConversation collected_info (.ok none)).bug_report_data =
        collected_info ∧
      (generateBugReportConversation collected_info (.ok none)).is_complete = false ∧
      (generateBugReportConversation collected_info (.ok none)).questions_to_ask = []) ∧
    ((generateBugReportConversation collected_info (.error e)).bug_report_data =
        collected_info ∧
      (generateBugReportConversation collected_info (.error e)).is_complete = false ∧
      (generateBugReportConversation collected_info (.error e)).questions_to_ask = []) :=
  ⟨⟨rfl, rfl, rfl⟩, ⟨rfl, rfl, rfl⟩⟩

/-- Claim C3: on a successful parse the returned completion flag is the
payload's `is_complete` verbatim (line 127's `.get('is_complete', False)`
default when the key is absent), and this holds even when required fields
of the merged record are still missing — the processor never recomputes
completion from `_get_missing_fields`. -/
theorem claim_C3 (collected_info : Record) (p : Payload) :
    (generateBugReportConversation collected_info (.ok (some p))).is_complete =
      p.is_complete.getD false ∧
    (getMissingFields
        ((generateBugReportConversation collected_info (.ok (some p))).bug_report_data) ≠ [] →
      (generateBugReportConversation collected_info (.ok (some p))).is_complete =
        p.is_complete.getD false) :=
  ⟨rfl, fun _ => rfl⟩

/-- Claim C3 witness: a payload claiming completion while every required
field except the title is still missing — the flag is still returned
verbatim. -/
theorem claim_C3_witness :
    (generateBugReportConversation [] (.ok (some payloadDone))).is_complete =
      payloadDone.is_complete.getD false :=
  (claim_C3 [] payloadDone).2 (by decide)

/-- Claim C4: the merge never removes a key present in `existing`, and
never replaces a non-blank value of `existing` with a blank incoming
value — at every key the merged value is either `existing`'s value or a
non-blank incoming value. (No duplicate-key assumption is needed.) -/
theorem claim_C4 (r1 r2 : Record) (k : String) :
    ((alGet r1 k).isSome = true → (alGet (merge r1 r2) k).isSome = true) ∧
    (∀ v, alGet r1 k = some v → nonBlank v = true →
      ∃ w, alGet (merge r1 r2) k = some w ∧ nonBlank w = true) := by
  rw [alGet_merge r2 r1 k]
  cases hl : lastNB r2 k with
  | some w =>
    refine ⟨fun _ => rfl, fun v _ _ => ⟨w, rfl, lastNB_nonBlank r2 k w hl⟩⟩
  | none =>
    refine ⟨fun h => ?_, fun v h1 h2 => ⟨v, ?_, h2⟩⟩
    · simpa [Option.or] using h
    · simpa [Option.or] using h1

/-- Claim C4 witness: a blank incoming `severity` does not destroy the
existing non-blank one. -/
theorem claim_C4_witness :
    (alGet (merge [("severity", "High")] [("severity", " ")]) "severity").isSome = true ∧
    ∃ w, alGet (merge [("severity", "High")] [("severity", " ")]) "severity" = some w ∧
      nonBlank w = true :=
  ⟨(claim_C4 [("severity", "High")] [("severity", " ")] "severity").1 (by decide),
   (claim_C4 [("severity", "High")] [("severity", " ")] "severity").2 "High"
     (by decide) (by decide)⟩

/-- Claim C5, counterexample to the claim as stated: the claim says only
an existing `"Q<n>:"` (digit) prefix is stripped and non-prefix text is
preserved, but the code's second branch (line 143) strips up to the first
colon for any question that starts with `"Q"` and contains a colon
anywhere: `"Quick question: does it crash?"` has no `"Q<n>:"` prefix, yet
it is formatted as `"Q1: does it crash?"` instead of the claimed
`"Q1: Quick question: does it crash?"`. -/
theorem claim_C5_cx :
    formatQuestions ["Quick question: does it crash?"] = ["Q1: does it crash?"] ∧
    formatQuestions ["Quick question: does it crash?"] ≠
      ["Q1: Quick question: does it crash?"] := by
  decide

/-- Claim C5 (amended): the output list has the input's length and its
`i`-th element (0-based) always starts with the sequential gap-free tag
`"Q{i+1}:"`; the element equals the stripped input question kept verbatim
when it already bears exactly its positional tag, otherwise
`"Q{i+1}: "` followed by — when the stripped question starts with `"Q"`
and contains a colon (not merely a `"Q<n>:"` digit prefix) — the text
after the first colon, stripped; and otherwise by the stripped question
itself in full. -/
theorem claim_C5 (questions_to_ask : List String) :
    (formatQuestions questions_to_ask).length = questions_to_ask.length ∧
    ∀ i, i < questions_to_ask.length →
      pyStartsWith ((formatQuestions questions_to_ask).getD i "") (qTag (i + 1)) = true ∧
      (formatQuestions questions_to_ask).getD i "" =
        (if pyStartsWith (pyStrip (questions_to_ask.getD i "")) (qTag (i + 1)) then
          pyStrip (questions_to_ask.getD i "")
        else if pyStartsWith (pyStrip (questions_to_ask.getD i "")) "Q" &&
            (pyStrip (questions_to_ask.getD i "")).data.contains ':' then
          qTag (i + 1) ++ " " ++ pyStrip (afterColon (pyStrip (questions_to_ask.getD i "")))
        else
          qTag (i + 1) ++ " " ++ pyStrip (questions_to_ask.getD i "")) := by
  constructor
  · exact formatQuestionsFrom_length questions_to_ask 1
  · intro i h
    have hg := formatQuestionsFrom_getD questions_to_ask 1 i h
    rw [show (1 : Nat) + i = i + 1 from by omega] at hg
    constructor
    · rw [show formatQuestions questions_to_ask = formatQuestionsFrom 1 questions_to_ask
        from rfl, hg]
      exact formatQuestion_startsWith (i + 1) (questions_to_ask.getD i "")
    · rw [show formatQuestions questions_to_ask = formatQuestionsFrom 1 questions_to_ask
        from rfl, hg]
      rfl

/-- Claim C5 witness: length preservation and the positional tag at a
concrete question list. -/
theorem claim_C5_witness :
    (formatQuestions ["Q2: what OS?"]).length = (["Q2: what OS?"] : List String).length ∧
    pyStartsWith ((formatQuestions ["Q2: what OS?"]).getD 0 "") (qTag (0 + 1)) = true :=
  ⟨(claim_C5 ["Q2: what OS?"]).1,
   ((claim_C5 ["Q2: what OS?"]).2 0 (by decide)).1⟩

/-- Claim C9: the merge of src/agents/bug_agent.py lines 130-134 is
idempotent in its second argument: replaying the same incoming record
changes nothing. -/
theorem claim_C9 (r1 r2 : Record) : merge (merge r1 r2) r2 = merge r1 r2 := by
  rw [merge_eq_map_overrideBy r2 (merge r1 r2)
    (fun p hp hb => mem_keysOf_merge_of_mem r2 r1 p hp hb)]
  rw [List.map_congr_left (fun p hp => overrideBy_of_mem_merge r2 r1 p hp)]
  simp

/-- Claim C6: a turn whose extraction outcome carries a `true` completion
flag removes the session from the store before the response (which
reports completion, built after `process_bug_report` ran) is returned, so
the very next lookup misses; and a session fed any non-empty sequence of
turns none of which carries a `true` completion flag is still in the
store afterwards. -/
theorem claim_C6 :
    (∀ (store : Store) (session_id transcript : String)
       (extraction : Except String (Option Payload)) (env : S3Env)
       (createTicket : JiraCredentials → Record → List (String × Option String) → JiraTicketResult)
       (now : String) (user_id console_logs screen_recording : Option String)
       (jira_credentials : Option JiraCredentials),
       extractionComplete extraction = true →
         alGet (bugReportChat store session_id transcript extraction env createTicket
           now user_id console_logs screen_recording jira_credentials).1 session_id = none ∧
         (bugReportChat store session_id transcript extraction env createTicket
           now user_id console_logs screen_recording jira_credentials).2.bug_report_complete
           = true) ∧
    (∀ (store : Store) (session_id : String)
       (inputs : List (String × Except String (Option Payload))) (env : S3Env)
       (createTicket : JiraCredentials → Record → List (String × Option String) → JiraTicketResult)
       (now : String) (user_id console_logs screen_recording : Option String)
       (jira_credentials : Option JiraCredentials),
       inputs ≠ [] →
       (∀ x ∈ inputs, extractionComplete x.2 = false) →
       (alGet (runTurns env createTicket now user_id console_logs screen_recording
          jira_credentials session_id store inputs) session_id).isSome = true) := by
  constructor
  · intro store session_id transcript extraction env createTicket now user_id
      console_logs screen_recording jira_credentials h
    exact bugReportChat_evicts store session_id transcript extraction env createTicket
      now user_id console_logs screen_recording jira_credentials h
  · intro store session_id inputs env createTicket now user_id console_logs
      screen_recording jira_credentials
    induction inputs generalizing store with
    | nil => intro hne _; exact absurd rfl hne
    | cons x rest ih =>
      intro _ hall
      cases rest with
      | nil =>
        simp only [runTurns]
        exact bugReportChat_keeps store session_id x.1 x.2 env createTicket now
          user_id console_logs screen_recording jira_credentials
          (hall x (List.mem_cons_self x []))
      | cons y rest2 =>
        simp only [runTurns]
        exact ih _ (by simp) (fun z hz => hall z (List.mem_cons_of_mem x hz))

/-- Claim C6 witness: a completing turn evicts a fresh session; a single
non-completing turn leaves it in the store. -/
theorem claim_C6_witness :
    (alGet (bugReportChat [] "s1" "hi" (.ok (some payloadDone)) testEnv testTicket
        "t0" none none none none).1 "s1" = none ∧
      (bugReportChat [] "s1" "hi" (.ok (some payloadDone)) testEnv testTicket
        "t0" none none none none).2.bug_report_complete = true) ∧
    (alGet (runTurns testEnv testTicket "t0" none none none none "s1" []
        [("hi", .ok (some payloadMore))]) "s1").isSome = true :=
  ⟨claim_C6.1 [] "s1" "hi" (.ok (some payloadDone)) testEnv testTicket "t0"
      none none none none (by decide),
   claim_C6.2 [] "s1" [("hi", .ok (some payloadMore))] testEnv testTicket "t0"
      none none none none (List.cons_ne_nil _ _)
      (by intro z hz; rw [List.mem_singleton.mp hz]; decide)⟩

/-- Claim C7, counterexample to the claim as stated: resetting an absent
session id is not reported as a success. A session that was registered
and then evicted on completion (so its id is absent at reset time) gets
`success = false`, `"Session not found"` — the code cannot distinguish a
never-registered id from a registered-and-evicted one. -/
theorem claim_C7_cx :
    alGet (bugReportChat [] "s1" "hi" (.ok (some payloadDone)) testEnv testTicket
      "t0" none none none none).1 "s1" = none ∧
    (resetSession (bugReportChat [] "s1" "hi" (.ok (some payloadDone)) testEnv testTicket
      "t0" none none none none).1 "s1").2.success = false ∧
    (resetSession (bugReportChat [] "s1" "hi" (.ok (some payloadDone)) testEnv testTicket
      "t0" none none none none).1 "s1").2.message = "Session not found" := by
  decide

/-- Claim C7 (amended): the reset operation reports `success = true`
exactly when the id is present in the store at call time (in which case
it deletes it), and `success = false` with `"Session not found"` for any
absent id — whether never registered or already evicted — leaving the
store unchanged; neither path raises. -/
theorem claim_C7 (store : Store) (session_id : String) :
    ((alGet store session_id).isSome = true →
      (resetSession store session_id).1 = alDel store session_id ∧
      (resetSession store session_id).2.success = true ∧
      (resetSession store session_id).2.message = "Session reset successfully") ∧
    ((alGet store session_id).isSome = false →
      (resetSession store session_id).1 = store ∧
      (resetSession store session_id).2.success = false ∧
      (resetSession store session_id).2.message = "Session not found") := by
  constructor
  · intro h
    have ha := (alGet_isSome_iff_any store session_id).mp h
    simp [resetSession, ha]
  · intro h
    have ha : store.any (fun p => p.1 == session_id) = false := by
      cases hx : store.any (fun p => p.1 == session_id)
      · rfl
      · exact absurd ((alGet_isSome_iff_any store session_id).mpr hx) (by simp [h])
    simp [resetSession, ha]

/-- Claim C7 witness: both branches of the amended reset contract at
concrete stores. -/
theorem claim_C7_witness :
    ((resetSession [("a", SessionState.mk [] [] false)] "a").1 =
        alDel [("a", SessionState.mk [] [] false)] "a" ∧
      (resetSession [("a", SessionState.mk [] [] false)] "a").2.success = true ∧
      (resetSession [("a", SessionState.mk [] [] false)] "a").2.message =
        "Session reset successfully") ∧
    ((resetSession [] "b").1 = [] ∧
      (resetSession [] "b").2.success = false ∧
      (resetSession [] "b").2.message = "Session not found") :=
  ⟨(claim_C7 [("a", SessionState.mk [] [] false)] "a").1 (by decide),
   (claim_C7 [] "b").2 (by decide)⟩

/-- Claim C8: dispatching a completed report without ticket credentials
skips ticket creation rather than failing — the result has a `none`
ticket, reports success, and each provided attachment's archival upload
is still attempted with its own outcome, independently of the others (the
oracle `env` is arbitrary, so any of the other uploads may be failing). -/
theorem claim_C8 (env : S3Env)
    (createTicket : JiraCredentials → Record → List (String × Option String) → JiraTicketResult)
    (now : String) (bug_report_data : Record) (conversation_transcript : String)
    (console_logs screen_recording user_id : Option String) :
    (processBugReport env createTicket now bug_report_data conversation_transcript
      console_logs screen_recording none user_id).jira_ticket = none ∧
    (processBugReport env createTicket now bug_report_data conversation_transcript
      console_logs screen_recording none user_id).success = true ∧
    (conversation_transcript ≠ "" →
      ("transcription", env.uploadText conversation_transcript
        ((processBugReport env createTicket now bug_report_data conversation_transcript
          console_logs screen_recording none user_id).report_id ++ "/transcription.txt")) ∈
        (processBugReport env createTicket now bug_report_data conversation_transcript
          console_logs screen_recording none user_id).s3_urls) ∧
    (∀ l, console_logs = some l → l ≠ "" →
      ("console_logs", env.uploadText l
        ((processBugReport env createTicket now bug_report_data conversation_transcript
          console_logs screen_recording none user_id).report_id ++ "/console_logs.txt")) ∈
        (processBugReport env createTicket now bug_report_data conversation_transcript
          console_logs screen_recording none user_id).s3_urls) ∧
    (∀ s, screen_recording = some s → s ≠ "" → isBase64Like s = true →
      ("screen_recording", env.uploadBase64 s
        ((processBugReport env createTicket now bug_report_data conversation_transcript
          console_logs screen_recording none user_id).report_id ++ "/screen_recording.webm")) ∈
        (processBugReport env createTicket now bug_report_data conversation_transcript
          console_logs screen_recording none user_id).s3_urls) := by
  refine ⟨rfl, rfl, ?_, ?_, ?_⟩
  · intro h
    exact mem_upload_transcription env
      ((processBugReport env createTicket now bug_report_data conversation_transcript
        console_logs screen_recording none user_id).report_id)
      (some conversation_transcript) console_logs screen_recording
      (by simp only [truthyOpt, bne_iff_ne, decide_eq_true_eq]; exact h)
  · intro l hl h
    subst hl
    exact mem_upload_console_logs env
      ((processBugReport env createTicket now bug_report_data conversation_transcript
        (some l) screen_recording none user_id).report_id)
      (some conversation_transcript) (some l) screen_recording
      (by simp only [truthyOpt, bne_iff_ne, decide_eq_true_eq]; exact h)
  · intro s hs h hb
    subst hs
    exact mem_upload_screen_recording env
      ((processBugReport env createTicket now bug_report_data conversation_transcript
        console_logs (some s) none user_id).report_id)
      (some conversation_transcript) console_logs (some s)
      (by simp only [truthyOpt, bne_iff_ne, decide_eq_true_eq]; exact h) hb

/-- Claim C8 witness: a dispatch without credentials, with every S3 call
failing, still succeeds with a `none` ticket and attempts all three
uploads. -/
theorem claim_C8_witness :
    (processBugReport testEnv testTicket "t0" [] "T" (some "L") (some "data:x")
      none none).jira_ticket = none ∧
    ("transcription", testEnv.uploadText "T"
      ((processBugReport testEnv testTicket "t0" [] "T" (some "L") (some "data:x")
        none none).report_id ++ "/transcription.txt")) ∈
      (processBugReport testEnv testTicket "t0" [] "T" (some "L") (some "data:x")
        none none).s3_urls ∧
    ("console_logs", testEnv.uploadText "L"
      ((processBugReport testEnv testTicket "t0" [] "T" (some "L") (some "data:x")
        none none).report_id ++ "/console_logs.txt")) ∈
      (processBugReport testEnv testTicket "t0" [] "T" (some "L") (some "data:x")
        none none).s3_urls ∧
    ("screen_recording", testEnv.uploadBase64 "data:x"
      ((processBugReport testEnv testTicket "t0" [] "T" (some "L") (some "data:x")
        none none).report_id ++ "/screen_recording.webm")) ∈
      (processBugReport testEnv testTicket "t0" [] "T" (some "L") (some "data:x")
        none none).s3_urls := by
  have h := claim_C8 testEnv testTicket "t0" [] "T" (some "L") (some "data:x") none
  exact ⟨h.1, h.2.2.1 (by decide), h.2.2.2.1 "L" rfl (by decide),
    h.2.2.2.2 "data:x" rfl (by decide) (by decide)⟩

/-- Claim C10: `process_bug_report` reports top-level success with the
message `'Bug report processed successfully'` unconditionally — for every
upload-outcome oracle (including all-failing), every ticket outcome, and
with or without credentials. -/
theorem claim_C10 (env : S3Env)
    (createTicket : JiraCredentials → Record → List (String × Option String) → JiraTicketResult)
    (now : String) (bug_report_data : Record) (conversation_transcript : String)
    (console_logs screen_recording : Option String)
    (jira_credentials : Option JiraCredentials) (user_id : Option String) :
    (processBugReport env createTicket now bug_report_data conversation_transcript
      console_logs screen_recording jira_credentials user_id).success = true ∧
    (processBugReport env createTicket now bug_report_data conversation_transcript
      console_logs screen_recording jira_credentials user_id).message =
      "Bug report processed successfully" :=
  ⟨rfl, rfl⟩

end AgilowBug
